import Mathlib

/-!
Verification of the yoshino ORM core against its specification.

Shallow embedding of:
- `core/src/types.rs` — field conversion contracts, `RowID`, the `Schema`
  trait's `get_row_id_field` default method;
- `sqlite/src/lib.rs` — the SQLite adaptor: statement-text generation,
  parameter binding, row decoding, and the engine-call traces of each
  adaptor operation.

The crate's `db` module (the `DbData` trait object interface, `DbError`,
`DbQueryResult`) and the derive-generated `Schema` implementations are not
part of the provided sources; where a definition depends on them it is
modelled from the spec and marked as such in its doc comment.

Machine integers (`i64`, `c_int`) are modelled as `Int`; none of the
verified properties involve overflow. Raw pointers that may be null are
modelled as `Option`; a null pointer is `none`.
-/

namespace Yoshino

/-- `DbDataType` from the crate's value model: the closed tag set. -/
inductive DbDataType
  | Int
  | NullableInt
  | Text
  | NullableText
  | RowID
deriving DecidableEq, Repr

/-- `RowID` from `core/src/types.rs`: `NEW` (not yet persisted) or
`ID(i64)` (persisted primary key). -/
inductive RowID
  | NEW
  | ID (v : Int)
deriving DecidableEq, Repr

/-- A boxed `dyn DbData` value. The source erases the concrete type behind
a trait object; the five concrete types that implement the trait (per
`core/src/types.rs` impls) are `i64`, `Option<i64>`, `String`,
`Option<String>` and `RowID`, so the box is a sum of those payloads. -/
inductive DbData
  | i (v : Int)
  | oi (v : Option Int)
  | s (v : String)
  | os (v : Option String)
  | rid (r : RowID)
deriving DecidableEq, Repr

/-- Modelled from the spec: `DbError` lives in the missing `core/src/db.rs`;
§7 gives the error taxonomy. The adaptor code under `src/` never constructs
any of these values. -/
inductive DbError
  | OpenFailure
  | PrepareFailure
  | BindFailure
  | ExecutionFault
  | SchemaInvariantViolation
deriving DecidableEq, Repr

/-- Modelled from the spec: `DbData::db_data_type` (missing `db.rs`); §4.1
says each conversion contract advertises its own intrinsic `DbDataType`. -/
def DbData.db_data_type : DbData → DbDataType
  | .i _ => .Int
  | .oi _ => .NullableInt
  | .s _ => .Text
  | .os _ => .NullableText
  | .rid _ => .RowID

/-- Modelled from the spec: whether `DbData::db_data_ptr` (missing `db.rs`)
returns a null pointer. An absent optional value and an unassigned
`RowID::NEW` have no payload to point at, so their data pointer is null —
this is what `insert_record`'s null-fallback branches test. -/
def DbData.ptr_is_null : DbData → Bool
  | .oi none => true
  | .os none => true
  | .rid .NEW => true
  | _ => false

/-- Modelled from the spec: dereferencing `db_data_ptr` as `*const i64`
(missing `db.rs`). Meaningful only when the pointer is non-null and the
payload is integral; other cases read 0. -/
def DbData.int_payload : DbData → Int
  | .i v => v
  | .oi (some v) => v
  | .rid (.ID v) => v
  | _ => 0

/-- Modelled from the spec: reading `db_data_ptr`/`db_data_len` as an owned
text buffer (missing `db.rs`); §3 requires the buffer to be independently
owned. Meaningful when the pointer is non-null and the payload is textual. -/
def DbData.text_payload : DbData → String
  | .s v => v
  | .os (some v) => v
  | _ => ""

/-- Modelled from the spec: `DbData::db_data_len` (missing `db.rs`), the
length qualifying the text buffer. Byte length in the source; the unit does
not matter for any verified property. -/
def DbData.db_data_len : DbData → Nat
  | .s v => v.length
  | .os (some v) => v.length
  | _ => 0

/-- Modelled from the spec: `<String as DbData>::from_boxed_db_data`
(missing `db.rs`), total assuming the box carries a `Text` tag (§4.1). -/
def textField_from_db_data (d : DbData) : String :=
  d.text_payload

/-- Modelled from the spec: `<Option<String> as DbData>::from_boxed_db_data`
(missing `db.rs`): a null data pointer decodes to the absent variant. -/
def nullableTextField_from_db_data (d : DbData) : Option String :=
  if d.ptr_is_null then none else some d.text_payload

/-- Modelled from the spec: `<i64 as DbData>::from_boxed_db_data`
(missing `db.rs`), total assuming the box carries an `Int` tag (§4.1). -/
def integerField_from_db_data (d : DbData) : Int :=
  d.int_payload

/-- Modelled from the spec: `<Option<i64> as DbData>::from_boxed_db_data`
(missing `db.rs`): a null data pointer decodes to the absent variant,
a non-null pointer is dereferenced. -/
def nullableIntegerField_from_db_data (d : DbData) : Option Int :=
  if d.ptr_is_null then none else some d.int_payload

/-- Modelled from the spec: `<RowID as DbData>::from_boxed_db_data`
(missing `db.rs`): a boxed `RowID` is read back as itself; on a tag
mismatch the behaviour is implementation-defined (§4.1) — modelled as
reading the integer payload. -/
def rowID_from_db_data : DbData → RowID
  | .rid r => r
  | d => .ID d.int_payload

/-! ### Field values and the generated `Schema` implementation -/

/-- Modelled from the spec: a single field of a structure implementing
`Schema`. The derive-generated implementations are external collaborators
(§6); a structure value is modelled as its ordered list of typed field
values, one constructor per built-in field kind of §4.1. -/
inductive FieldValue
  | text (v : String)
  | ntext (v : Option String)
  | int (v : Int)
  | nint (v : Option Int)
  | rowid (r : RowID)
deriving DecidableEq, Repr

/-- The `DbDataType` tag of a field value's kind, per the `db_field_type`
constants of `core/src/types.rs`. -/
def FieldValue.kind : FieldValue → DbDataType
  | .text _ => .Text
  | .ntext _ => .NullableText
  | .int _ => .Int
  | .nint _ => .NullableInt
  | .rowid _ => .RowID

/-- One field's contribution to `get_values`: the `to_db_data` impls of
`core/src/types.rs` (identity / `to_owned` / `clone`), boxed as a
`dyn DbData` by the generated `get_values` (boxing modelled from spec §6). -/
def FieldValue.to_db_data : FieldValue → DbData
  | .text v => .s v
  | .ntext v => .os v
  | .int v => .i v
  | .nint v => .oi v
  | .rowid r => .rid r

/-- One field's reconstruction inside the generated `create_with_values`:
dispatch on the field's kind to the matching `from_db_data` impl of
`core/src/types.rs` (each of which delegates to `from_boxed_db_data`). -/
def FieldValue.from_db_data : DbDataType → DbData → FieldValue
  | .Text, d => .text (textField_from_db_data d)
  | .NullableText, d => .ntext (nullableTextField_from_db_data d)
  | .Int, d => .int (integerField_from_db_data d)
  | .NullableInt, d => .nint (nullableIntegerField_from_db_data d)
  | .RowID, d => .rowid (rowID_from_db_data d)

/-- Modelled from the spec: the generated `Schema::get_values` — the ordered
list of boxed `DbData` values of a structure's fields (§4.2). -/
def get_values (rec : List FieldValue) : List DbData :=
  rec.map FieldValue.to_db_data

/-- Modelled from the spec: the generated `Schema::create_with_values` —
rebuild each field from the boxed value at its position, using the field's
declared kind (§4.2, positional-ordering invariant of §3). -/
def create_with_values (kinds : List DbDataType) (values : List DbData) : List FieldValue :=
  (kinds.zip values).map fun p => FieldValue.from_db_data p.1 p.2

/-! ### `Schema::get_row_id_field` (`core/src/types.rs`, lines 114–132) -/

/-- The loop body of `get_row_id_field`, walking fields and values in
lockstep (the source indexes `fields` and `values` by the same `i`; the
zipped list is that lockstep walk). `answer` is the accumulator; finding a
second `RowID`-tagged field panics — modelled as `Except.error` carrying
the panic message. -/
def rowIdLoop (schemaName : String) :
    List ((String × DbDataType) × DbData) → Option (String × RowID) →
    Except String (Option (String × RowID))
  | [], answer => .ok answer
  | (fv, field_value) :: rest, answer =>
    if fv.2 = DbDataType.RowID then
      if answer.isNone then
        rowIdLoop schemaName rest (some (fv.1, rowID_from_db_data field_value))
      else
        .error ("Multiple Row ID fields found in " ++ schemaName)
    else
      rowIdLoop schemaName rest answer

/-- `Schema::get_row_id_field`: scan `get_fields()` and `get_values()` in
lockstep; `None` if no `RowID` field, the first one's name and decoded
value otherwise; panic (modelled as `Except.error`) on a second one. -/
def get_row_id_field (schemaName : String) (fields : List (String × DbDataType))
    (values : List DbData) : Except String (Option (String × RowID)) :=
  rowIdLoop schemaName (fields.zip values) none

/-! ### Statement-text generation (`sqlite/src/lib.rs`, lines 27–78)

Each generator loops `for i in 0..fields.len()`, appending `", "` before
every item except the first. `commaLoop` is that loop shape, shared by the
three generators exactly as the source repeats it. -/

/-- The source's comma-separation loop: fold over indices `0..n`,
prepending `", "` to every item except item 0. -/
def commaLoop (f : Nat → String) (n : Nat) (s0 : String) : String :=
  (List.range n).foldl (fun s i => (if i ≠ 0 then s ++ ", " else s) ++ f i) s0

/-- The default used for the source's `fields.get(i).unwrap()`; the loop
bound is `fields.len()` so the lookup never actually falls back to it. -/
def fieldDefault : String × DbDataType := ("", DbDataType.Int)

/-- The DDL text for one column type, from the `match` in
`get_create_table_stmt_code` (note the source's leading space on `Int`). -/
def ddlType : DbDataType → String
  | .Int => " INTEGER NOT NULL"
  | .NullableInt => "INTEGER"
  | .Text => "TEXT NOT NULL"
  | .NullableText => "TEXT"
  | .RowID => "INTEGER PRIMARY KEY"

/-- `SQLiteAdaptor::get_create_table_stmt_code`. -/
def get_create_table_stmt_code (schema_name : String)
    (fields : List (String × DbDataType)) : String :=
  let s := "CREATE TABLE IF NOT EXISTS " ++ schema_name ++ " ("
  let s := commaLoop
    (fun i => (fields.getD i fieldDefault).1 ++ " " ++ ddlType (fields.getD i fieldDefault).2)
    fields.length s
  s ++ ");"

/-- `SQLiteAdaptor::get_insert_value_stmt_code`: field names, then the
positional placeholders `?1` … `?n`. -/
def get_insert_value_stmt_code (schema_name : String)
    (fields : List (String × DbDataType)) : String :=
  let s := "INSERT INTO " ++ schema_name ++ " ("
  let s := commaLoop (fun i => (fields.getD i fieldDefault).1) fields.length s
  let s := s ++ ") VALUES ("
  let s := commaLoop (fun i => "?" ++ toString (i + 1)) fields.length s
  s ++ ");"

/-- `SQLiteAdaptor::get_query_stmt`: the field names, then the table. -/
def get_query_stmt (schema_name : String)
    (fields : List (String × DbDataType)) : String :=
  let s := "SELECT "
  let s := commaLoop (fun i => (fields.getD i fieldDefault).1) fields.length s
  s ++ " FROM " ++ schema_name ++ ";"

/-! ### The native engine boundary (`sqlite/src/lib.rs`)

The adaptor's interaction with SQLite is modelled as the list of calls an
operation issues (its trace) together with the value it returns. The
return codes the engine would hand back are passed in as parameters, so a
theorem can quantify over every engine behaviour; the source binds them to
`r`/`r2` and ignores them (its own `TODO: check result value and generate
errors` comments mark this). -/

/-- The SQLite result codes the source matches on or receives. -/
def SQLITE_OK : Int := 0

/-- `SQLITE_ERROR`: generic engine failure code. -/
def SQLITE_ERROR : Int := 1

/-- `SQLITE_MISUSE`: the library was used incorrectly. -/
def SQLITE_MISUSE : Int := 21

/-- `SQLITE_ROW`: `sqlite3_step` has a row ready. -/
def SQLITE_ROW : Int := 100

/-- `SQLITE_DONE`: `sqlite3_step` has finished executing. -/
def SQLITE_DONE : Int := 101

/-- One call across the native boundary, as issued by the adaptor. -/
inductive EngineCall
  | openDb (filename : String)
  | prepare (sql : String)
  | bindInt (pos : Nat) (v : Int)
  | bindNull (pos : Nat)
  | bindText (pos : Nat) (v : Option String) (len : Nat)
  | step
  | columnInt64 (pos : Nat)
  | columnText (pos : Nat)
  | finalize
  | closeDb
deriving DecidableEq, Repr

/-- `SQLiteAdaptor`: holds the raw connection handle. -/
structure SQLiteAdaptor where
  db_handler : Int
deriving DecidableEq, Repr

/-- `SQLiteRowIterator`: holds the raw prepared-statement handle. -/
structure SQLiteRowIterator where
  stmt : Int
deriving DecidableEq, Repr

/-- `SQLiteAdaptor::open`: call `sqlite3_open` and wrap whatever handle it
wrote through the out-parameter. `openResult` is the engine's return code;
the source discards it, so the adaptor is returned unconditionally (the
signature `-> SQLiteAdaptor` has no error variant at all). -/
def SQLiteAdaptor.open (filename : String) (openResult : Int) (handle : Int) :
    List EngineCall × SQLiteAdaptor :=
  ([.openDb filename], { db_handler := handle })

/-- The per-parameter binding dispatch inside `insert_record` (lines
182–208): match on the boxed value's runtime tag; `i` is the 1-based
placeholder position. A null data pointer is passed to `sqlite3_bind_text`
as-is (which SQLite treats as binding NULL), hence the `Option String`. -/
def bind_param (i : Nat) (d : DbData) : EngineCall :=
  match d.db_data_type with
  | .Int => .bindInt i d.int_payload
  | .NullableInt | .RowID =>
    if d.ptr_is_null then .bindNull i else .bindInt i d.int_payload
  | .Text | .NullableText =>
    .bindText i (if d.ptr_is_null then none else some d.text_payload) d.db_data_len

/-- `DbAdaptor::create_table_for_schema` for `SQLiteAdaptor` (lines
144–164): build the DDL text, prepare, step, finalize — and return
`Ok(())` whatever the engine said (`r`, `r2` are bound and ignored;
the source's own `TODO` comment marks the missing checks). -/
def create_table_for_schema (schema_name : String)
    (fields : List (String × DbDataType))
    (prepareResult stepResult finalizeResult : Int) :
    List EngineCall × Except DbError Unit :=
  let create_table_stmt := get_create_table_stmt_code schema_name fields
  ([.prepare create_table_stmt, .step, .finalize], Except.ok ())

/-- `DbAdaptor::insert_record` for `SQLiteAdaptor` (lines 166–214): build
the parameterized INSERT, prepare it, bind parameter `ii+1` from
`params[ii]` by tag, step once, finalize — and return `Ok(())` whatever
any of those calls reported. -/
def insert_record (schema_name : String) (fields : List (String × DbDataType))
    (params : List DbData) (prepareResult stepResult finalizeResult : Int) :
    List EngineCall × Except DbError Unit :=
  let insert_record_stmt := get_insert_value_stmt_code schema_name fields
  let binds := (List.range params.length).map
    fun ii => bind_param (ii + 1) (params.getD ii (.i 0))
  ([.prepare insert_record_stmt] ++ binds ++ [.step, .finalize], Except.ok ())

/-- `DbAdaptor::query_all` for `SQLiteAdaptor` (lines 216–235): build the
SELECT, prepare it, and hand the statement handle to a fresh
`SQLiteRowIterator` — no step happens here; the prepare result is ignored
(the source's `TODO` comment again). -/
def query_all (schema_name : String) (fields : List (String × DbDataType))
    (prepareResult : Int) (stmtHandle : Int) :
    List EngineCall × Except DbError SQLiteRowIterator :=
  let query_stmt := get_query_stmt schema_name fields
  ([.prepare query_stmt], Except.ok { stmt := stmtHandle })

/-! ### Row decoding and the iterator (`sqlite/src/lib.rs`, lines 94–141) -/

/-- What the engine holds in one result column. -/
inductive ColVal
  | int (v : Int)
  | text (v : String)
  | null
deriving DecidableEq, Repr

/-- `sqlite3_column_int64`: SQLite returns 0 for a NULL column and coerces
text (coercion of non-numeric text also yields 0; no verified property
reads an integer from a text column). -/
def sqlite3_column_int64 : ColVal → Int
  | .int v => v
  | .text _ => 0
  | .null => 0

/-- `sqlite3_column_text`: SQLite returns a null pointer for a NULL column
(modelled as `none`) and the text bytes otherwise (an integer column is
coerced to its decimal rendering). -/
def sqlite3_column_text : ColVal → Option String
  | .int v => some (toString v)
  | .text v => some v
  | .null => none

/-- Decoding one column inside `SQLiteRowIterator::next`, by the schema's
declared type at that position. `Int`/`NullableInt` read
`sqlite3_column_int64` and box the raw `i64` (so a NULL column becomes the
boxed integer 0); `RowID` boxes `RowID::ID(v)`; `Text`/`NullableText` call
`strlen` on the pointer from `sqlite3_column_text` and copy that many
bytes into an owned `String` — on a NULL column that pointer is null and
`strlen(NULL)` has no defined result, modelled as `none`. -/
def decodeColumn (field_type : DbDataType) (c : ColVal) : Option DbData :=
  match field_type with
  | .Int | .NullableInt => some (.i (sqlite3_column_int64 c))
  | .RowID => some (.rid (RowID.ID (sqlite3_column_int64 c)))
  | .Text | .NullableText =>
    match sqlite3_column_text c with
    | some v => some (.s v)
    | none => none

/-- The decode loop of `SQLiteRowIterator::next`: one `DbData` per field,
field `i` read from column `i` (the positional walk is structural here;
a column the engine does not have reads as NULL). -/
def decodeRow : List (String × DbDataType) → List ColVal → Option (List DbData)
  | [], _ => some []
  | f :: fs, cols => do
    let v ← decodeColumn f.2 (cols.headD .null)
    let vs ← decodeRow fs cols.tail
    pure (v :: vs)

/-- The engine calls `next` makes to read one row's columns: per field, an
integer read or a text read by declared type. -/
def columnCalls (fields : List (String × DbDataType)) : List EngineCall :=
  (List.range fields.length).map fun i =>
    match (fields.getD i fieldDefault).2 with
    | .Int | .NullableInt | .RowID => .columnInt64 i
    | .Text | .NullableText => .columnText i

/-- `SQLiteRowIterator::next`: step the statement and match the raw code —
`SQLITE_DONE → None`, `SQLITE_ROW →` decode a record, and the wildcard arm
maps every other code (including every fault code) to `None` as well. The
outcome is `some r` when the source returns `r`, and `none` when the
decode hits the undefined `strlen(NULL)` (so no defined value is
returned). -/
def sqliteRowIterator_next (fields : List (String × DbDataType))
    (stepResult : Int) (cols : List ColVal) :
    List EngineCall × Option (Option (List DbData)) :=
  if stepResult = SQLITE_DONE then ([.step], some none)
  else if stepResult = SQLITE_ROW then
    match decodeRow fields cols with
    | some vs => ([.step] ++ columnCalls fields, some (some vs))
    | none => ([.step] ++ columnCalls fields, none)
  else ([.step], some none)

/-- `Drop for SQLiteRowIterator`: finalize the statement. Rust runs `drop`
at most once per value, so disposal is one occurrence of this trace. -/
def sqliteRowIterator_drop : List EngineCall := [.finalize]

/-- A whole iterator lifetime: the traces of the `next` calls the consumer
made (each described by the step code the engine returned and the row it
had ready), then the drop. Zero `next` calls, partial consumption and
consumption to exhaustion are all instances. -/
def iteratorLifecycle (fields : List (String × DbDataType))
    (steps : List (Int × List ColVal)) : List EngineCall :=
  (steps.map fun p => (sqliteRowIterator_next fields p.1 p.2).1).flatten
    ++ sqliteRowIterator_drop

/-! ### Helper lemmas: the comma loop is comma separation -/

/-- Comma-separated rendering of a list of items: the specification-side
reading of the source's `if i != 0 { s += ", " }` loop. -/
def commaSep : List String → String
  | [] => ""
  | [x] => x
  | x :: y :: rest => x ++ ", " ++ commaSep (y :: rest)

theorem commaSep_append_singleton (l : List String) (y : String) (h : l ≠ []) :
    commaSep (l ++ [y]) = commaSep l ++ ", " ++ y := by
  induction l with
  | nil => exact absurd rfl h
  | cons x xs ih =>
    cases xs with
    | nil => rfl
    | cons z zs =>
      have h1 : commaSep (x :: z :: zs ++ [y]) = x ++ ", " ++ commaSep (z :: zs ++ [y]) := rfl
      have h2 : commaSep (x :: z :: zs) = x ++ ", " ++ commaSep (z :: zs) := rfl
      rw [h1, ih (by simp), h2]
      simp [String.append_assoc]

theorem commaLoop_eq (f : Nat → String) (n : Nat) (s0 : String) :
    commaLoop f n s0 = s0 ++ commaSep ((List.range n).map f) := by
  induction n with
  | zero => simp [commaLoop, commaSep, String.append_empty]
  | succ m ih =>
    unfold commaLoop at ih ⊢
    rw [List.range_succ, List.foldl_append, ih]
    cases m with
    | zero => simp [commaSep, String.append_empty, String.append_assoc]
    | succ k =>
      have hne : List.map f (List.range (k + 1)) ≠ [] := by simp [List.range_succ]
      rw [List.map_append]
      simp only [List.map_cons, List.map_nil]
      rw [commaSep_append_singleton _ _ hne]
      simp [Nat.succ_ne_zero, String.append_assoc]

theorem range_map_getD {α β : Type} (l : List α) (g : α → β) (d : α) :
    (List.range l.length).map (fun i => g (l.getD i d)) = l.map g := by
  induction l with
  | nil => rfl
  | cons a t ih =>
    rw [List.length_cons, List.range_succ_eq_map, List.map_cons, List.map_map]
    show g a :: List.map (fun i => g (t.getD i d)) (List.range t.length) = List.map g (a :: t)
    rw [ih, List.map_cons]

/-- The CREATE TABLE text, rendered as header plus comma-separated column
definitions. -/
theorem create_table_stmt_shape (schema_name : String)
    (fields : List (String × DbDataType)) :
    get_create_table_stmt_code schema_name fields =
      "CREATE TABLE IF NOT EXISTS " ++ schema_name ++ " (" ++
        commaSep (fields.map fun p => p.1 ++ " " ++ ddlType p.2) ++ ");" := by
  simp only [get_create_table_stmt_code, commaLoop_eq]
  rw [range_map_getD fields (fun p => p.1 ++ " " ++ ddlType p.2) fieldDefault]

/-- The INSERT text, rendered as the comma-separated field names followed
by the comma-separated placeholders `?1` … `?n`. -/
theorem insert_stmt_shape (schema_name : String)
    (fields : List (String × DbDataType)) :
    get_insert_value_stmt_code schema_name fields =
      "INSERT INTO " ++ schema_name ++ " (" ++ commaSep (fields.map Prod.fst) ++
        ") VALUES (" ++
        commaSep ((List.range fields.length).map fun i => "?" ++ toString (i + 1)) ++
        ");" := by
  simp only [get_insert_value_stmt_code, commaLoop_eq]
  rw [range_map_getD fields Prod.fst fieldDefault]

/-- The SELECT text, rendered as the comma-separated field names and the
table name. -/
theorem query_stmt_shape (schema_name : String)
    (fields : List (String × DbDataType)) :
    get_query_stmt schema_name fields =
      "SELECT " ++ commaSep (fields.map Prod.fst) ++ " FROM " ++ schema_name ++ ";" := by
  simp only [get_query_stmt, commaLoop_eq]
  rw [range_map_getD fields Prod.fst fieldDefault]

/-! ### Helper lemmas for `get_row_id_field` -/

/-- Whether a schema field is tagged `RowID`. -/
def isRowIdField (f : String × DbDataType) : Bool :=
  f.2 == DbDataType.RowID

theorem isRowIdField_iff (f : String × DbDataType) :
    isRowIdField f = true ↔ f.2 = DbDataType.RowID := by
  simp [isRowIdField]

theorem countP_cons_fst (fv : String × DbDataType) (d : DbData)
    (rest : List ((String × DbDataType) × DbData)) :
    ((fv, d) :: rest).countP (fun p => isRowIdField p.1) =
      rest.countP (fun p => isRowIdField p.1) +
        (if fv.2 = DbDataType.RowID then 1 else 0) := by
  rw [List.countP_cons]
  by_cases hr : fv.2 = DbDataType.RowID <;> simp [isRowIdField, hr]

theorem rowIdLoop_no_rowid (s : String)
    (z : List ((String × DbDataType) × DbData)) (answer : Option (String × RowID))
    (h : z.countP (fun p => isRowIdField p.1) = 0) :
    rowIdLoop s z answer = .ok answer := by
  induction z generalizing answer with
  | nil => rfl
  | cons p rest ih =>
    obtain ⟨fv, d⟩ := p
    rw [countP_cons_fst] at h
    by_cases hr : fv.2 = DbDataType.RowID
    · rw [if_pos hr] at h
      omega
    · rw [if_neg hr] at h
      simp only [rowIdLoop, if_neg hr]
      exact ih _ (by omega)

theorem rowIdLoop_second_rowid (s : String)
    (z : List ((String × DbDataType) × DbData)) (a : String × RowID)
    (h : 1 ≤ z.countP (fun p => isRowIdField p.1)) :
    rowIdLoop s z (some a) = .error ("Multiple Row ID fields found in " ++ s) := by
  induction z with
  | nil => simp [List.countP_nil] at h
  | cons p rest ih =>
    obtain ⟨fv, d⟩ := p
    rw [countP_cons_fst] at h
    by_cases hr : fv.2 = DbDataType.RowID
    · simp only [rowIdLoop, if_pos hr, Option.isNone_some, Bool.false_eq_true, if_false]
    · rw [if_neg hr] at h
      simp only [rowIdLoop, if_neg hr]
      exact ih (by omega)

theorem rowIdLoop_two_rowids (s : String)
    (z : List ((String × DbDataType) × DbData))
    (h : 2 ≤ z.countP (fun p => isRowIdField p.1)) :
    rowIdLoop s z none = .error ("Multiple Row ID fields found in " ++ s) := by
  induction z with
  | nil => simp [List.countP_nil] at h
  | cons p rest ih =>
    obtain ⟨fv, d⟩ := p
    rw [countP_cons_fst] at h
    by_cases hr : fv.2 = DbDataType.RowID
    · rw [if_pos hr] at h
      simp only [rowIdLoop, if_pos hr, Option.isNone_none, if_true]
      exact rowIdLoop_second_rowid s rest _ (by omega)
    · rw [if_neg hr] at h
      simp only [rowIdLoop, if_neg hr]
      exact ih (by omega)

theorem rowIdLoop_unique_rowid (s : String)
    (z1 : List ((String × DbDataType) × DbData)) (nm : String) (d : DbData)
    (z2 : List ((String × DbDataType) × DbData))
    (h1 : z1.countP (fun p => isRowIdField p.1) = 0)
    (h2 : z2.countP (fun p => isRowIdField p.1) = 0) :
    rowIdLoop s (z1 ++ ((nm, DbDataType.RowID), d) :: z2) none =
      .ok (some (nm, rowID_from_db_data d)) := by
  induction z1 with
  | nil =>
    show rowIdLoop s (((nm, DbDataType.RowID), d) :: z2) none = _
    simp only [rowIdLoop, if_pos rfl, Option.isNone_none, if_true]
    exact rowIdLoop_no_rowid s z2 _ h2
  | cons p rest ih =>
    obtain ⟨fv, d1⟩ := p
    rw [countP_cons_fst] at h1
    by_cases hr : fv.2 = DbDataType.RowID
    · rw [if_pos hr] at h1
      omega
    · rw [if_neg hr] at h1
      show rowIdLoop s ((fv, d1) :: (rest ++ ((nm, DbDataType.RowID), d) :: z2)) none = _
      simp only [rowIdLoop, if_neg hr]
      exact ih (by omega)

theorem countP_zip_fst {β : Type} (fields : List (String × DbDataType))
    (values : List β) (pred : (String × DbDataType) → Bool)
    (hlen : values.length = fields.length) :
    (fields.zip values).countP (fun p => pred p.1) = fields.countP pred := by
  induction fields generalizing values with
  | nil => simp
  | cons f fs ih =>
    cases values with
    | nil => simp at hlen
    | cons v vt =>
      rw [List.zip_cons_cons, List.countP_cons, List.countP_cons,
        ih vt (by simpa using hlen)]

/-! ### Claim theorems -/

/-- Claim C1 — refuted, code bug. The claim says every failure reported by
the native engine boundary is surfaced as an error result. The adaptor
ignores every engine return code (the source's own `TODO: check result
value and generate errors` comments mark the omissions, and the repo's
`test_app` even calls `.unwrap()` on `open`'s result, which the shipped
signature cannot provide): at the concrete failing inputs below the engine
reports `SQLITE_ERROR` from open and prepare and `SQLITE_MISUSE` from step,
yet `open` hands back an adaptor and `create_table_for_schema`,
`insert_record` and `query_all` all return a success outcome. -/
theorem claim_C1_engine_failures_swallowed :
    (SQLiteAdaptor.open "db1" SQLITE_ERROR 7).2 = { db_handler := 7 }
  ∧ (create_table_for_schema "Counter" [("name", .Text), ("stock", .NullableInt)]
      SQLITE_ERROR SQLITE_MISUSE SQLITE_MISUSE).2 = Except.ok ()
  ∧ (insert_record "Counter" [("name", .Text), ("stock", .NullableInt)]
      [.s "milk", .oi (some 20)] SQLITE_ERROR SQLITE_MISUSE SQLITE_MISUSE).2 = Except.ok ()
  ∧ (query_all "Counter" [("name", .Text), ("stock", .NullableInt)]
      SQLITE_ERROR 9).2 = Except.ok { stmt := 9 } :=
  ⟨rfl, rfl, rfl, rfl⟩

/-- Claim C2 — refuted, code bug. The claim says a step fault is surfaced
as an error rather than treated as end of sequence. The iterator's match
has a wildcard arm mapping every non-row, non-done code to `None`: at the
concrete fault codes `SQLITE_ERROR` and `SQLITE_MISUSE` the consumer
receives exactly what `SQLITE_DONE` produces (the `Option` return type has
no error variant at all, so no three-way outcome exists). -/
theorem claim_C2_fault_treated_as_done :
    (sqliteRowIterator_next [("name", .Text), ("stock", .NullableInt)]
      SQLITE_ERROR []).2 = some none
  ∧ (sqliteRowIterator_next [("name", .Text), ("stock", .NullableInt)]
      SQLITE_MISUSE []).2 = some none
  ∧ (sqliteRowIterator_next [("name", .Text), ("stock", .NullableInt)]
      SQLITE_DONE []).2 = some none := by
  refine ⟨?_, ?_, ?_⟩ <;> rfl

/-- Claim C3 — refuted on the query half, code bug. Inserting an absent
`NullableInt`/`NullableText` field does bind null (first two conjuncts:
the null-pointer fallbacks of `insert_record`). But reading the row back
cannot produce the absent variant: `next` reads a `NullableInt` column
with `sqlite3_column_int64` — which renders NULL as 0 — and boxes the raw
`i64`, so the decoded rows for a NULL `stock` and for a 0 `stock` are one
and the same value (third conjunct), and the rebuilt record carries
`Some 0`, not `None` (last two conjuncts). -/
theorem claim_C3_null_roundtrip_broken :
    bind_param 2 (FieldValue.nint none).to_db_data = EngineCall.bindNull 2
  ∧ bind_param 2 (FieldValue.ntext none).to_db_data = EngineCall.bindText 2 none 0
  ∧ decodeRow [("name", .Text), ("stock", .NullableInt)] [.text "cream", .null]
      = decodeRow [("name", .Text), ("stock", .NullableInt)] [.text "cream", .int 0]
  ∧ create_with_values [.Text, .NullableInt]
      ((decodeRow [("name", .Text), ("stock", .NullableInt)]
        [.text "cream", .null]).getD [])
      = [.text "cream", .nint (some 0)]
  ∧ create_with_values [.Text, .NullableInt]
      ((decodeRow [("name", .Text), ("stock", .NullableInt)]
        [.text "cream", .null]).getD [])
      ≠ [.text "cream", .nint none] := by
  refine ⟨rfl, rfl, rfl, rfl, ?_⟩
  decide

/-- Claim C4, counterexample. The claim says a schema with more than one
`RowID`-tagged field is a fatal configuration error raised at schema
registration time, never per call. The code has no registration phase at
all: the only check lives in `Schema::get_row_id_field`, an instance
method, whose documented behaviour is to panic when it is called on such a
schema. Concretely, calling it on a two-`RowID` schema raises the fatal
error there — a per-call raise, contradicting the claim. -/
theorem claim_C4_counterexample :
    get_row_id_field "S" [("id", .RowID), ("id2", .RowID)]
      [.rid .NEW, .rid (.ID 1)]
      = Except.error "Multiple Row ID fields found in S" := rfl

/-- Claim C4, amended: for a schema whose field and value lists have equal
length (the positional invariant of §3), `get_row_id_field` returns `None`
when no field is `RowID`-tagged; returns the name and decoded value of the
unique `RowID` field when exactly one is; and panics ("Multiple Row ID
fields found in …") whenever it is called with two or more — the error is
raised per call of `get_row_id_field`, as there is no registration-time
check. -/
theorem claim_C4_amended (schemaName : String)
    (fields : List (String × DbDataType)) (values : List DbData)
    (hlen : values.length = fields.length) :
    (fields.countP isRowIdField = 0 →
      get_row_id_field schemaName fields values = Except.ok none)
  ∧ (∀ fields1 nm fields2 d values1 values2,
      fields = fields1 ++ (nm, DbDataType.RowID) :: fields2 →
      values = values1 ++ d :: values2 →
      values1.length = fields1.length →
      fields1.countP isRowIdField = 0 →
      fields2.countP isRowIdField = 0 →
      get_row_id_field schemaName fields values =
        Except.ok (some (nm, rowID_from_db_data d)))
  ∧ (2 ≤ fields.countP isRowIdField →
      get_row_id_field schemaName fields values =
        Except.error ("Multiple Row ID fields found in " ++ schemaName)) := by
  refine ⟨fun h0 => ?_, ?_, fun h2 => ?_⟩
  · exact rowIdLoop_no_rowid schemaName _ none
      (by rw [countP_zip_fst fields values isRowIdField hlen]; exact h0)
  · intro fields1 nm fields2 d values1 values2 hf hv hl1 hc1 hc2
    have hl2 : values2.length = fields2.length := by
      rw [hf, hv] at hlen
      simp only [List.length_append, List.length_cons] at hlen
      omega
    unfold get_row_id_field
    rw [hf, hv, List.zip_append (by rw [hl1]), List.zip_cons_cons]
    exact rowIdLoop_unique_rowid schemaName (fields1.zip values1) nm d
      (fields2.zip values2)
      (by rw [countP_zip_fst fields1 values1 isRowIdField hl1]; exact hc1)
      (by rw [countP_zip_fst fields2 values2 isRowIdField hl2]; exact hc2)
  · exact rowIdLoop_two_rowids schemaName _
      (by rw [countP_zip_fst fields values isRowIdField hlen]; omega)

/-- Claim C4, witness: the amended theorem applied to a concrete schema
with exactly one `RowID` field. -/
theorem claim_C4_witness :
    get_row_id_field "S" [("id", DbDataType.RowID), ("nm", DbDataType.Text)]
      [DbData.rid (RowID.ID 7), DbData.s "x"]
      = Except.ok (some ("id", RowID.ID 7)) := by
  have h := (claim_C4_amended "S"
      [("id", DbDataType.RowID), ("nm", DbDataType.Text)]
      [DbData.rid (RowID.ID 7), DbData.s "x"] rfl).2.1
      [] "id" [("nm", DbDataType.Text)] (DbData.rid (RowID.ID 7))
      [] [DbData.s "x"] rfl rfl rfl (by decide) (by decide)
  simpa using h

/-- Claim C5 — confirmed. The INSERT text lists the schema's field names
in declared order and then exactly the positional placeholders `?1` …
`?n`; it is built from the schema name and field list alone, so no record
value is ever interpolated into it. Each parameter is bound by its
tag-appropriate routine: plain integer bind for `Int`; integer bind with
null fallback for `NullableInt` and `RowID`; text bind (null pointer and
all) for `Text` and `NullableText`. The last conjunct ties the pieces to
`insert_record`'s actual engine-call trace: prepare the generated text,
bind parameter `ii+1` from value `ii`, step, finalize. -/
theorem claim_C5_insert_parameterized (schema_name : String)
    (fields : List (String × DbDataType)) :
    get_insert_value_stmt_code schema_name fields =
      "INSERT INTO " ++ schema_name ++ " (" ++ commaSep (fields.map Prod.fst) ++
        ") VALUES (" ++
        commaSep ((List.range fields.length).map fun i => "?" ++ toString (i + 1)) ++
        ");"
  ∧ (∀ (i : Nat) (d : DbData),
      (d.db_data_type = DbDataType.Int →
        bind_param i d = EngineCall.bindInt i d.int_payload)
    ∧ (d.db_data_type = DbDataType.NullableInt ∨ d.db_data_type = DbDataType.RowID →
        bind_param i d =
          if d.ptr_is_null then EngineCall.bindNull i
          else EngineCall.bindInt i d.int_payload)
    ∧ (d.db_data_type = DbDataType.Text ∨ d.db_data_type = DbDataType.NullableText →
        bind_param i d =
          EngineCall.bindText i
            (if d.ptr_is_null then none else some d.text_payload) d.db_data_len))
  ∧ (∀ (params : List DbData) (prepareResult stepResult finalizeResult : Int),
      (insert_record schema_name fields params
          prepareResult stepResult finalizeResult).1 =
        [EngineCall.prepare (get_insert_value_stmt_code schema_name fields)]
          ++ ((List.range params.length).map
                fun ii => bind_param (ii + 1) (params.getD ii (.i 0)))
          ++ [EngineCall.step, EngineCall.finalize]) := by
  refine ⟨insert_stmt_shape schema_name fields, fun i d => ⟨?_, ?_, ?_⟩,
    fun params _ _ _ => rfl⟩
  · intro h
    simp [bind_param, h]
  · intro h
    rcases h with h | h <;> simp [bind_param, h]
  · intro h
    rcases h with h | h <;> simp [bind_param, h]

/-- Claim C5, witness: the binding clauses at concrete tagged values. -/
theorem claim_C5_witness :
    bind_param 1 (DbData.i 5) = EngineCall.bindInt 1 5
  ∧ bind_param 2 (DbData.oi none) = EngineCall.bindNull 2
  ∧ bind_param 3 (DbData.s "milk") = EngineCall.bindText 3 (some "milk") 4 := by
  refine ⟨?_, ?_, ?_⟩
  · have h := ((claim_C5_insert_parameterized "t" []).2.1 1 (DbData.i 5)).1 rfl
    simpa using h
  · have h := ((claim_C5_insert_parameterized "t" []).2.1 2
      (DbData.oi none)).2.1 (Or.inl rfl)
    simpa using h
  · have h := ((claim_C5_insert_parameterized "t" []).2.1 3
      (DbData.s "milk")).2.2 (Or.inl rfl)
    simpa using h

/-- Claim C6 — confirmed. The create-table text begins with
`CREATE TABLE IF NOT EXISTS` and the schema name (so repeated calls are
safe), and renders one column per field in declared order as the field
name, a space, and its DDL type: `RowID ⇒ INTEGER PRIMARY KEY`,
`Int ⇒ INTEGER NOT NULL` (the source emits a harmless second leading
space for this arm), `Text ⇒ TEXT NOT NULL`, `NullableInt ⇒ INTEGER`,
`NullableText ⇒ TEXT`. The last conjunct checks this is the text
`create_table_for_schema` actually prepares. -/
theorem claim_C6_create_table_ddl (schema_name : String)
    (fields : List (String × DbDataType)) :
    get_create_table_stmt_code schema_name fields =
      "CREATE TABLE IF NOT EXISTS " ++ schema_name ++ " (" ++
        commaSep (fields.map fun p => p.1 ++ " " ++ ddlType p.2) ++ ");"
  ∧ ddlType DbDataType.RowID = "INTEGER PRIMARY KEY"
  ∧ ddlType DbDataType.Int = " INTEGER NOT NULL"
  ∧ ddlType DbDataType.Text = "TEXT NOT NULL"
  ∧ ddlType DbDataType.NullableInt = "INTEGER"
  ∧ ddlType DbDataType.NullableText = "TEXT"
  ∧ (∀ prepareResult stepResult finalizeResult : Int,
      (create_table_for_schema schema_name fields
          prepareResult stepResult finalizeResult).1.head? =
        some (EngineCall.prepare (get_create_table_stmt_code schema_name fields))) :=
  ⟨create_table_stmt_shape schema_name fields, rfl, rfl, rfl, rfl, rfl,
    fun _ _ _ => rfl⟩

/-- Claim C7 — confirmed. `query_all` prepares a SELECT naming exactly the
schema's fields in declared order from the table named by the schema name,
and returns the row iterator over that statement handle having issued no
other engine call — in particular no `step`, so no row is fetched before
the consumer first advances the iterator. -/
theorem claim_C7_query_all_lazy (schema_name : String)
    (fields : List (String × DbDataType)) (prepareResult stmtHandle : Int) :
    (query_all schema_name fields prepareResult stmtHandle).1 =
      [EngineCall.prepare (get_query_stmt schema_name fields)]
  ∧ get_query_stmt schema_name fields =
      "SELECT " ++ commaSep (fields.map Prod.fst) ++ " FROM " ++ schema_name ++ ";"
  ∧ (query_all schema_name fields prepareResult stmtHandle).2 =
      Except.ok { stmt := stmtHandle }
  ∧ EngineCall.step ∉ (query_all schema_name fields prepareResult stmtHandle).1 := by
  refine ⟨rfl, query_stmt_shape schema_name fields, rfl, ?_⟩
  simp [query_all]

/-- One field value survives the round trip through its boxed `DbData`
form: `from_db_data` after `to_db_data` is the identity for each of the
five built-in kinds. -/
theorem fieldValue_from_to (fv : FieldValue) :
    FieldValue.from_db_data fv.kind fv.to_db_data = fv := by
  cases fv with
  | text v => rfl
  | ntext v => cases v <;> rfl
  | int v => rfl
  | nint v => cases v <;> rfl
  | rowid r => rfl

/-- Claim C8 — confirmed (the `DbData` trait impls and the generated
`Schema` methods are modelled from the spec, see the definitions'
comments). Rebuilding a record from its own boxed values restores it field
by field, and each built-in conversion round-trips. -/
theorem claim_C8_value_roundtrip :
    (∀ rec : List FieldValue,
      create_with_values (rec.map FieldValue.kind) (get_values rec) = rec)
  ∧ (∀ fv : FieldValue, FieldValue.from_db_data fv.kind fv.to_db_data = fv) := by
  refine ⟨fun rec => ?_, fieldValue_from_to⟩
  induction rec with
  | nil => rfl
  | cons f t ih =>
    show FieldValue.from_db_data f.kind f.to_db_data ::
        create_with_values (t.map FieldValue.kind) (get_values t) = f :: t
    rw [fieldValue_from_to, ih]

/-- Reading a row's columns never releases the statement: `finalize` is
not among the column-read calls. -/
theorem columnCalls_no_finalize (fields : List (String × DbDataType)) :
    EngineCall.finalize ∉ columnCalls fields := by
  intro hmem
  simp only [columnCalls, List.mem_map] at hmem
  obtain ⟨i, _, heq⟩ := hmem
  cases ht : (fields.getD i fieldDefault).2 <;> rw [ht] at heq <;> simp at heq

/-- The trace of one `next` call: a step, then possibly the column reads. -/
theorem next_trace_cases (fields : List (String × DbDataType)) (r : Int)
    (cols : List ColVal) :
    (sqliteRowIterator_next fields r cols).1 = [EngineCall.step]
  ∨ (sqliteRowIterator_next fields r cols).1 =
      [EngineCall.step] ++ columnCalls fields := by
  unfold sqliteRowIterator_next
  by_cases h1 : r = SQLITE_DONE
  · rw [if_pos h1]
    exact Or.inl rfl
  · rw [if_neg h1]
    by_cases h2 : r = SQLITE_ROW
    · rw [if_pos h2]
      cases hdec : decodeRow fields cols <;> simp [hdec]
    · rw [if_neg h2]
      exact Or.inl rfl

/-- A `next` call never finalizes the statement. -/
theorem next_count_finalize_zero (fields : List (String × DbDataType))
    (r : Int) (cols : List ColVal) :
    ((sqliteRowIterator_next fields r cols).1).count EngineCall.finalize = 0 := by
  rcases next_trace_cases fields r cols with h | h <;> rw [h]
  · decide
  · rw [List.count_append, List.count_eq_zero.mpr (columnCalls_no_finalize fields)]
    decide

/-- Claim C9 — confirmed. Over a whole iterator lifetime — any number of
`next` calls (zero, some, or through exhaustion), then the drop — the
statement handle is finalized exactly once: the drop contributes the one
`finalize`, and no `next` call ever contributes another. Rust runs `drop`
at most once per value, so disposal is a single occurrence of the drop
trace and cannot double-release. -/
theorem claim_C9_finalize_exactly_once (fields : List (String × DbDataType))
    (steps : List (Int × List ColVal)) :
    (iteratorLifecycle fields steps).count EngineCall.finalize = 1
  ∧ (∀ (r : Int) (cols : List ColVal),
      ((sqliteRowIterator_next fields r cols).1).count EngineCall.finalize = 0)
  ∧ sqliteRowIterator_drop.count EngineCall.finalize = 1 := by
  refine ⟨?_, next_count_finalize_zero fields, by decide⟩
  unfold iteratorLifecycle sqliteRowIterator_drop
  rw [List.count_append]
  have h0 : ((steps.map
      fun p => (sqliteRowIterator_next fields p.1 p.2).1).flatten).count
        EngineCall.finalize = 0 := by
    induction steps with
    | nil => rfl
    | cons x xs ih =>
      rw [List.map_cons, List.flatten_cons, List.count_append, ih,
        next_count_finalize_zero]
  rw [h0]
  decide

/-- A decoded column is never the unassigned `RowID::NEW`: each arm of the
decode produces a plain integer, a persisted `RowID::ID`, or owned text. -/
theorem decodeColumn_not_new (t : DbDataType) (c : ColVal) (v : DbData)
    (h : decodeColumn t c = some v) : v ≠ DbData.rid RowID.NEW := by
  cases t with
  | Int => simp [decodeColumn] at h; simp [← h]
  | NullableInt => simp [decodeColumn] at h; simp [← h]
  | RowID => simp [decodeColumn] at h; simp [← h]
  | Text =>
    cases hc : sqlite3_column_text c <;> simp [decodeColumn, hc] at h
    simp [← h]
  | NullableText =>
    cases hc : sqlite3_column_text c <;> simp [decodeColumn, hc] at h
    simp [← h]

/-- Position 0 of the source's column walk reads the head column. -/
theorem getD_zero_headD {α : Type} (l : List α) (d : α) : l.getD 0 d = l.headD d := by
  cases l <;> rfl

/-- Position `i + 1` of the source's column walk reads position `i` of the
remaining columns. -/
theorem getD_succ_tail {α : Type} (l : List α) (i : Nat) (d : α) :
    l.getD (i + 1) d = l.tail.getD i d := by
  cases l <;> rfl

/-- Claim C10 — confirmed. Whenever `next` decodes a row, the value at the
position of every `RowID`-tagged field is the persisted variant
`RowID::ID` carrying exactly the engine's integer column value at that
position (`sqlite3_column_int64` of column `i`), and the unassigned
variant `RowID::NEW` appears nowhere in the decoded row. -/
theorem claim_C10_decoded_rowid_persisted (fields : List (String × DbDataType))
    (cols : List ColVal) (vs : List DbData)
    (h : decodeRow fields cols = some vs) :
    (∀ (i : Nat) (nm : String), fields.get? i = some (nm, DbDataType.RowID) →
      vs.get? i =
        some (DbData.rid (RowID.ID (sqlite3_column_int64 (cols.getD i ColVal.null)))))
  ∧ DbData.rid RowID.NEW ∉ vs := by
  induction fields generalizing cols vs with
  | nil =>
    simp [decodeRow] at h
    subst h
    exact ⟨fun i nm hi => by simp at hi, by simp⟩
  | cons f fs ih =>
    rcases hv : decodeColumn f.2 (cols.headD .null) with _ | v
    · rw [decodeRow, hv] at h
      simp at h
    · rcases hrest : decodeRow fs cols.tail with _ | vs2
      · rw [decodeRow, hv, hrest] at h
        simp at h
      · rw [decodeRow, hv, hrest] at h
        simp at h
        subst h
        obtain ⟨ihpos, ihmem⟩ := ih cols.tail vs2 hrest
        constructor
        · intro i nm hi
          cases i with
          | zero =>
            simp only [List.get?_cons_zero, Option.some_inj] at hi
            subst hi
            simp only [decodeColumn] at hv
            simp only [Option.some_inj] at hv
            rw [List.get?_cons_zero, getD_zero_headD, ← hv]
          | succ j =>
            rw [List.get?_cons_succ] at hi
            rw [List.get?_cons_succ, getD_succ_tail]
            exact ihpos j nm hi
        · intro hmem
          rcases List.mem_cons.mp hmem with hmem | hmem
          · exact decodeColumn_not_new f.2 (cols.headD .null) v hv hmem.symm
          · exact ihmem hmem

/-- Claim C10, witness: a concrete one-field `RowID` schema decoded from a
concrete row whose integer column holds 5 yields `RowID::ID 5`. -/
theorem claim_C10_witness :
    [DbData.rid (RowID.ID 5)].get? 0 = some (DbData.rid (RowID.ID 5))
  ∧ DbData.rid RowID.NEW ∉ [DbData.rid (RowID.ID 5)] := by
  have h := claim_C10_decoded_rowid_persisted [("id", DbDataType.RowID)]
    [ColVal.int 5] [DbData.rid (RowID.ID 5)] rfl
  exact ⟨h.1 0 "id" rfl, h.2⟩

end Yoshino
